import Mathlib

/-!
# Verification of `unrestrictive-url` (repository `mainrs/url-rs`)

Shallow embedding of `src/crates/unrestrictive-url/src/lib.rs`:

* `UnrestrictiveUrl` mirrors the Rust struct field for field (borrowed
  `&str` fields become `String`, `Option<&str>` becomes `Option String`,
  `u16` becomes `Nat`, `url::Host<&str>` becomes the `Host` inductive).
* The serializer (`impl fmt::Display for UnrestrictiveUrl`) is embedded as
  `tokens : UnrestrictiveUrl → List Token`: each `write!` call site of the
  Rust code emits exactly one token, in the same order and under the same
  conditions as the source; `render` joins the rendered tokens.  This keeps
  the structural claims ("the `//` marker is emitted only when …") exact:
  a marker *appears* iff its token is a member of the emitted list.
* The component decomposer (`impl From<&url::Url> for UnrestrictiveUrl`)
  is embedded as `fromUrl : ParsedUrl → UnrestrictiveUrl`, where
  `ParsedUrl` models the accessor surface of the external `url::Url`
  parser (scheme/username/path are plain `&str` accessors there, hence
  non-optional fields here).
-/

namespace UrlRs

/-- `url::Host<&str>`: `Domain`, `Ipv4`, `Ipv6`.  The `Ipv4Addr`/`Ipv6Addr`
payloads are modelled by their `Display` text. -/
inductive Host where
  | Domain : String → Host
  | Ipv4 : String → Host
  | Ipv6 : String → Host
deriving DecidableEq, Repr

/-- How the serializer writes a host (step 2.3 of `Display::fmt`):
`Domain` and `Ipv4` verbatim, `Ipv6` bracketed. -/
def Host.render : Host → String
  | .Domain v => v
  | .Ipv4 v => v
  | .Ipv6 v => "[" ++ v ++ "]"

/-- Splitter on `'/'` over the character list, the semantics of Rust's
`str::split('/')`: the (non-empty) list of the maximal pieces between
slashes; consecutive and border slashes produce empty pieces. -/
def splitChars : List Char → List (List Char)
  | [] => [[]]
  | c :: rest =>
      let r := splitChars rest
      if c == '/' then [] :: r
      else
        match r with
        | piece :: tail => (c :: piece) :: tail
        | [] => [[c]]

/-- Rust `str::split('/')` as a list of strings. -/
def splitOnSlash (s : String) : List String :=
  (splitChars s.data).map String.mk

/-- Rust `str::starts_with('/')`. -/
def startsWithSlash (s : String) : Bool :=
  match s.data with
  | [] => false
  | c :: _ => c == '/'

/-- Rust `&v[1..]` under the guard `v.starts_with('/')`: the slash is one
byte, so the slice drops exactly the first character. -/
def tailStr (s : String) : String :=
  String.mk s.data.tail

/-- Rust `str::is_empty`. -/
def strIsEmpty (s : String) : Bool :=
  s.data.isEmpty

/-- The Rust struct `UnrestrictiveUrl<'a>`, field for field. -/
structure UnrestrictiveUrl where
  fragment : Option String
  host : Option Host
  password : Option String
  path : Option String
  port : Option Nat
  query : Option String
  scheme : Option String
  username : Option String
  cannot_be_a_base : Bool
deriving DecidableEq, Repr

/-- `UnrestrictiveUrl::path_segments`: if `path` is present and starts with
`'/'`, the split of the rest on `'/'` (the Rust lazy `Split` iterator is
modelled by the list of its items); otherwise `none`. -/
def UnrestrictiveUrl.path_segments (u : UnrestrictiveUrl) : Option (List String) :=
  u.path.bind fun v =>
    if startsWithSlash v then some (splitOnSlash (tailStr v)) else none

/-- One emitted token per `write!` call site of `Display::fmt`. -/
inductive Token where
  | schemeTok : String → Token
  | authMarker : Token
  | usernameTok : String → Token
  | passwordTok : String → Token
  | atSep : Token
  | hostTok : String → Token
  | portTok : Nat → Token
  | firstSegTok : String → Token
  | rootSlash : Token
  | dotMarker : Token
  | segmentTok : String → Token
  | queryTok : String → Token
  | fragmentTok : String → Token
deriving DecidableEq, Repr

/-- The text each `write!` site produces. -/
def Token.render : Token → String
  | .schemeTok s => s ++ ":"
  | .authMarker => "//"
  | .usernameTok s => s
  | .passwordTok s => ":" ++ s
  | .atSep => "@"
  | .hostTok s => s
  | .portTok n => ":" ++ toString n
  | .firstSegTok s => s
  | .rootSlash => "/"
  | .dotMarker => "/."
  | .segmentTok s => "/" ++ s
  | .queryTok s => "?" ++ s
  | .fragmentTok s => "#" ++ s

/-- Step 1 of `Display::fmt`: `write!(f, "{}:", scheme)` when present. -/
def schemeTokens (u : UnrestrictiveUrl) : List Token :=
  match u.scheme with
  | some scheme => [.schemeTok scheme]
  | none => []

/-- Steps 2.2.1–2.2.3: username verbatim, then `:<password>` when the
password is present and non-empty, then `@` — all only when username is
present. -/
def credTokens (u : UnrestrictiveUrl) : List Token :=
  match u.username with
  | some username =>
      [.usernameTok username] ++
        (match u.password with
         | some password => if !(strIsEmpty password) then [.passwordTok password] else []
         | none => []) ++
      [.atSep]
  | none => []

/-- Step 2.3: the `match &self.host` (the `None` arm emits nothing). -/
def hostTokens (u : UnrestrictiveUrl) : List Token :=
  match u.host with
  | some host => [.hostTok host.render]
  | none => []

/-- Step 2.4: `write!(f, ":{}", port)` when present. -/
def portTokens (u : UnrestrictiveUrl) : List Token :=
  match u.port with
  | some port => [.portTok port]
  | none => []

/-- Step 2: entered only when `self.host.is_some()`; `//` only when the
scheme is also present. -/
def authorityTokens (u : UnrestrictiveUrl) : List Token :=
  if u.host.isSome then
    (if u.scheme.isSome then [.authMarker] else []) ++
      credTokens u ++ hostTokens u ++ portTokens u
  else []

/-- Steps 3/4: the path section.  `cannot_be_a_base` takes the first item of
`path_segments()` (`.and_then(|mut v| v.next())`); otherwise `"/"` is
special-cased, and any other present path is split wholesale on `'/'` with
the `"/."` disambiguator when there is no host, the split has more than one
element and its first element is empty (`path_segments[0] == ""`). -/
def pathTokens (u : UnrestrictiveUrl) : List Token :=
  if u.cannot_be_a_base then
    match u.path_segments.bind List.head? with
    | some segment => [.firstSegTok segment]
    | none => []
  else
    match u.path with
    | some path =>
        if path = "/" then [.rootSlash]
        else
          let path_segments := splitOnSlash path
          (if u.host.isNone ∧ 1 < path_segments.length ∧ path_segments.headD "" = ""
           then [.dotMarker] else []) ++
          path_segments.map .segmentTok
    | none => []

/-- Step 5: `write!(f, "?{}", query)` when present. -/
def queryTokens (u : UnrestrictiveUrl) : List Token :=
  match u.query with
  | some query => [.queryTok query]
  | none => []

/-- Step 6: `write!(f, "#{}", fragment)` when present. -/
def fragmentTokens (u : UnrestrictiveUrl) : List Token :=
  match u.fragment with
  | some fragment => [.fragmentTok fragment]
  | none => []

/-- The full emission sequence of `Display::fmt`, in source order. -/
def tokens (u : UnrestrictiveUrl) : List Token :=
  schemeTokens u ++ authorityTokens u ++ pathTokens u ++
    queryTokens u ++ fragmentTokens u

/-- Concatenate a list of strings in order (the formatter appends each
`write!`'s output to the buffer). -/
def concatAll : List String → String
  | [] => ""
  | s :: rest => s ++ concatAll rest

/-- Concatenate the text of a token sequence. -/
def joinTokens (ts : List Token) : String :=
  concatAll (ts.map Token.render)

/-- `to_string()` of the Rust `Display` impl. -/
def render (u : UnrestrictiveUrl) : String :=
  joinTokens (tokens u)

/-- The accessor surface of the external `url::Url` parser, as consumed by
`From<&'a url::Url> for UnrestrictiveUrl<'a>`: `fragment()`, `host()`,
`password()`, `port()`, `query()` return options; `path()`, `scheme()` and
`username()` return plain `&str`; `cannot_be_a_base()` returns `bool`. -/
structure ParsedUrl where
  fragment : Option String
  host : Option Host
  password : Option String
  path : String
  port : Option Nat
  query : Option String
  scheme : String
  username : String
  cannot_be_a_base : Bool
deriving DecidableEq, Repr

/-- The component decomposer `From<&'a url::Url> for UnrestrictiveUrl<'a>`:
every accessor is copied through; `path` and `scheme` are injected into the
option by `.into()`; an empty username becomes `None`. -/
def fromUrl (url : ParsedUrl) : UnrestrictiveUrl :=
  let username := if strIsEmpty url.username then none else some url.username
  { fragment := url.fragment
    host := url.host
    password := url.password
    path := some url.path
    port := url.port
    query := url.query
    scheme := some url.scheme
    username := username
    cannot_be_a_base := url.cannot_be_a_base }

/-- Accessor values of `url::Url::parse("https://github.com")`: the WHATWG
parser normalizes the missing path of a special scheme to `"/"`, reports an
empty username and elides the scheme's default port. -/
def githubRoot : ParsedUrl :=
  { fragment := none
    host := some (.Domain "github.com")
    password := none
    path := "/"
    port := none
    query := none
    scheme := "https"
    username := ""
    cannot_be_a_base := false }

/-- Accessor values of `url::Url::parse("https://github.com/SirWindfield")`
(the input of the repository's `removes_scheme` test). -/
def githubSirWindfield : ParsedUrl :=
  { githubRoot with path := "/SirWindfield" }

/-- Accessor values of `url::Url::parse("https://user:pw@github.com/a")`. -/
def credUrl : ParsedUrl :=
  { githubRoot with username := "user", password := some "pw", path := "/a" }

/-- Accessor values of `url::Url::parse("mailto:foo")`: no host, opaque
path `"foo"`, and the cannot-be-a-base classification set. -/
def mailtoFoo : ParsedUrl :=
  { fragment := none
    host := none
    password := none
    path := "foo"
    port := none
    query := none
    scheme := "mailto"
    username := ""
    cannot_be_a_base := true }

/-- A field set with the cannot-be-a-base flag set and a slash-initial path,
exercising the first-segment branch of the serializer. -/
def cbabSample : UnrestrictiveUrl :=
  { fragment := none
    host := none
    password := none
    path := some "/foo/bar"
    port := none
    query := none
    scheme := some "x"
    username := none
    cannot_be_a_base := true }

/-- Follows the spec's words (§4.3 step 3, else-branch): path `"/"` is
emitted literally; any other present path is split wholesale on `/` and
every segment is emitted prefixed with `/`, preceded by the literal `/.`
exactly when there is no host, the segment list has more than one element
and its first element is the empty string; an absent path emits nothing. -/
def pathSectionSpec (u : UnrestrictiveUrl) : String :=
  match u.path with
  | none => ""
  | some p =>
      if p = "/" then "/"
      else
        let segs := splitOnSlash p
        (if u.host = none ∧ 1 < segs.length ∧ segs.head? = some "" then "/." else "")
          ++ concatAll (segs.map fun s => "/" ++ s)

/-- Follows the spec's words (§4.3 step 2.b): a present username is emitted
verbatim, `:<password>` exactly when the password is present and non-empty,
and the section always ends with `@`; an absent username emits nothing
regardless of the password. -/
def credSectionSpec (u : UnrestrictiveUrl) : String :=
  match u.username with
  | some username =>
      username ++
        (match u.password with
         | some password => if password = "" then "" else ":" ++ password
         | none => "") ++
      "@"
  | none => ""

/-- Follows the spec's words (§4.3 step 3, cannot-be-a-base branch with the
§4.2 accessor): when the path is present and begins with `/`, the first
segment of the remainder split on `/`, with no leading slash and all later
segments ignored; otherwise (no segments) nothing. -/
def firstSegmentSpec (u : UnrestrictiveUrl) : String :=
  match u.path with
  | some p => if startsWithSlash p then (splitOnSlash (tailStr p)).headD "" else ""
  | none => ""

/-! ## Helper lemmas -/

theorem joinTokens_nil : joinTokens [] = "" := rfl

theorem joinTokens_cons (t : Token) (ts : List Token) :
    joinTokens (t :: ts) = t.render ++ joinTokens ts := rfl

theorem joinTokens_append (a b : List Token) :
    joinTokens (a ++ b) = joinTokens a ++ joinTokens b := by
  induction a with
  | nil => simp [joinTokens, concatAll]
  | cons t ts ih => simp [joinTokens_cons, ih, String.append_assoc]

theorem joinTokens_map_segmentTok (l : List String) :
    joinTokens (l.map Token.segmentTok) = concatAll (l.map fun s => "/" ++ s) := by
  induction l with
  | nil => rfl
  | cons s rest ih => simp [joinTokens_cons, concatAll, ih, Token.render]

theorem mem_schemeTokens {t : Token} {u : UnrestrictiveUrl} (h : t ∈ schemeTokens u) :
    ∃ s, t = Token.schemeTok s := by
  rcases hs : u.scheme with _ | s <;> simp [schemeTokens, hs] at h
  exact ⟨s, h⟩

theorem mem_credTokens {t : Token} {u : UnrestrictiveUrl} (h : t ∈ credTokens u) :
    u.username.isSome ∧
      (t = Token.atSep ∨ (∃ s, t = Token.usernameTok s) ∨ ∃ s, t = Token.passwordTok s) := by
  rcases hu : u.username with _ | un <;> simp [credTokens, hu] at h
  refine ⟨rfl, ?_⟩
  rcases hp : u.password with _ | pw <;> simp [hp] at h
  · tauto
  · rcases h with h | h | h
    · exact .inr (.inl ⟨un, h⟩)
    · rcases hpe : strIsEmpty pw <;> simp [hpe] at h
      exact .inr (.inr ⟨pw, h⟩)
    · exact .inl h

theorem mem_hostTokens {t : Token} {u : UnrestrictiveUrl} (h : t ∈ hostTokens u) :
    ∃ s, t = Token.hostTok s := by
  rcases hh : u.host with _ | hv <;> simp [hostTokens, hh] at h
  exact ⟨hv.render, h⟩

theorem mem_portTokens {t : Token} {u : UnrestrictiveUrl} (h : t ∈ portTokens u) :
    ∃ n, t = Token.portTok n := by
  rcases hp : u.port with _ | n <;> simp [portTokens, hp] at h
  exact ⟨n, h⟩

theorem mem_queryTokens {t : Token} {u : UnrestrictiveUrl} (h : t ∈ queryTokens u) :
    ∃ s, t = Token.queryTok s := by
  rcases hq : u.query with _ | q <;> simp [queryTokens, hq] at h
  exact ⟨q, h⟩

theorem mem_fragmentTokens {t : Token} {u : UnrestrictiveUrl} (h : t ∈ fragmentTokens u) :
    ∃ s, t = Token.fragmentTok s := by
  rcases hf : u.fragment with _ | fr <;> simp [fragmentTokens, hf] at h
  exact ⟨fr, h⟩

theorem mem_pathTokens {t : Token} {u : UnrestrictiveUrl} (h : t ∈ pathTokens u) :
    (∃ s, t = Token.firstSegTok s) ∨ t = Token.rootSlash ∨ t = Token.dotMarker ∨
      ∃ s, t = Token.segmentTok s := by
  rcases hc : u.cannot_be_a_base <;> simp only [pathTokens, hc] at h
  · rcases hp : u.path with _ | p <;> simp only [hp] at h
    · simp at h
    · by_cases hr : p = "/"
      · simp [hr] at h
        exact .inr (.inl h)
      · simp only [hr, if_false] at h
        rcases List.mem_append.mp h with h | h
        · by_cases hA : (u.host.isNone ∧ 1 < (splitOnSlash p).length ∧
              (splitOnSlash p).headD "" = "")
          · rw [if_pos hA] at h
            simp at h
            exact .inr (.inr (.inl h))
          · rw [if_neg hA] at h
            simp at h
        · rcases List.mem_map.mp h with ⟨s, _, rfl⟩
          exact .inr (.inr (.inr ⟨s, rfl⟩))
  · rcases hseg : u.path_segments.bind List.head? with _ | s <;> simp [hseg] at h
    exact .inl ⟨s, h⟩

theorem mem_authorityTokens {t : Token} {u : UnrestrictiveUrl} (h : t ∈ authorityTokens u) :
    u.host.isSome ∧
      ((t = Token.authMarker ∧ u.scheme.isSome) ∨ t ∈ credTokens u ∨
        t ∈ hostTokens u ∨ t ∈ portTokens u) := by
  by_cases hh : u.host.isSome <;> simp only [authorityTokens, hh, if_true, if_false] at h
  · refine ⟨hh, ?_⟩
    by_cases hs : u.scheme.isSome <;> simp only [hs, if_true, if_false,
      List.nil_append, List.mem_append, List.mem_singleton] at h <;> tauto
  · simp at h

theorem authMarker_mem_tokens_iff (u : UnrestrictiveUrl) :
    Token.authMarker ∈ tokens u ↔ (u.host.isSome ∧ u.scheme.isSome) := by
  constructor
  · intro h
    rcases List.mem_append.mp h with h | h
    rotate_left
    · obtain ⟨s, h1⟩ := mem_fragmentTokens h
      simp at h1
    rcases List.mem_append.mp h with h | h
    rotate_left
    · obtain ⟨s, h1⟩ := mem_queryTokens h
      simp at h1
    rcases List.mem_append.mp h with h | h
    rotate_left
    · rcases mem_pathTokens h with ⟨s, h1⟩ | h1 | h1 | ⟨s, h1⟩ <;> simp at h1
    rcases List.mem_append.mp h with h | h
    · obtain ⟨s, h1⟩ := mem_schemeTokens h
      simp at h1
    · obtain ⟨hh, hcase⟩ := mem_authorityTokens h
      rcases hcase with ⟨_, hs⟩ | hc | hho | hpo
      · exact ⟨hh, hs⟩
      · obtain ⟨_, hshape⟩ := mem_credTokens hc
        rcases hshape with h1 | ⟨s, h1⟩ | ⟨s, h1⟩ <;> simp at h1
      · obtain ⟨s, h1⟩ := mem_hostTokens hho
        simp at h1
      · obtain ⟨n, h1⟩ := mem_portTokens hpo
        simp at h1
  · rintro ⟨hh, hs⟩
    refine List.mem_append.mpr (.inl (List.mem_append.mpr (.inl
      (List.mem_append.mpr (.inl (List.mem_append.mpr (.inr ?_)))))))
    unfold authorityTokens
    simp [hh, hs]

theorem atSep_mem_tokens_imp {u : UnrestrictiveUrl} (h : Token.atSep ∈ tokens u) :
    u.username.isSome := by
  rcases List.mem_append.mp h with h | h
  rotate_left
  · obtain ⟨s, h1⟩ := mem_fragmentTokens h
    simp at h1
  rcases List.mem_append.mp h with h | h
  rotate_left
  · obtain ⟨s, h1⟩ := mem_queryTokens h
    simp at h1
  rcases List.mem_append.mp h with h | h
  rotate_left
  · rcases mem_pathTokens h with ⟨s, h1⟩ | h1 | h1 | ⟨s, h1⟩ <;> simp at h1
  rcases List.mem_append.mp h with h | h
  · obtain ⟨s, h1⟩ := mem_schemeTokens h
    simp at h1
  · obtain ⟨hh, hcase⟩ := mem_authorityTokens h
    rcases hcase with ⟨h1, _⟩ | hc | hho | hpo
    · simp at h1
    · exact (mem_credTokens hc).1
    · obtain ⟨s, h1⟩ := mem_hostTokens hho
      simp at h1
    · obtain ⟨n, h1⟩ := mem_portTokens hpo
      simp at h1

theorem schemeTok_not_mem_of_none {u : UnrestrictiveUrl} (hs : u.scheme = none)
    (s : String) : Token.schemeTok s ∉ tokens u := by
  intro h
  rcases List.mem_append.mp h with h | h
  rotate_left
  · obtain ⟨q, h1⟩ := mem_fragmentTokens h
    simp at h1
  rcases List.mem_append.mp h with h | h
  rotate_left
  · obtain ⟨q, h1⟩ := mem_queryTokens h
    simp at h1
  rcases List.mem_append.mp h with h | h
  rotate_left
  · rcases mem_pathTokens h with ⟨q, h1⟩ | h1 | h1 | ⟨q, h1⟩ <;> simp at h1
  rcases List.mem_append.mp h with h | h
  · simp [schemeTokens, hs] at h
  · obtain ⟨hh, hcase⟩ := mem_authorityTokens h
    rcases hcase with ⟨h1, _⟩ | hc | hho | hpo
    · simp at h1
    · obtain ⟨_, hshape⟩ := mem_credTokens hc
      rcases hshape with h1 | ⟨q, h1⟩ | ⟨q, h1⟩ <;> simp at h1
    · obtain ⟨q, h1⟩ := mem_hostTokens hho
      simp at h1
    · obtain ⟨n, h1⟩ := mem_portTokens hpo
      simp at h1

theorem render_set_scheme (u : UnrestrictiveUrl) (t : String)
    (h : u.host.isSome) :
    render {u with scheme := some t} = t ++ "://" ++ render {u with scheme := none} := by
  have e1 : schemeTokens {u with scheme := some t} = [Token.schemeTok t] := rfl
  have e2 : schemeTokens {u with scheme := none} = [] := rfl
  have e3 : pathTokens {u with scheme := some t} = pathTokens {u with scheme := none} := rfl
  have e4 : queryTokens {u with scheme := some t} = queryTokens {u with scheme := none} := rfl
  have e5 : fragmentTokens {u with scheme := some t} =
      fragmentTokens {u with scheme := none} := rfl
  have e6 : authorityTokens {u with scheme := some t} =
      [Token.authMarker] ++ authorityTokens {u with scheme := none} := by
    have hcred : credTokens {u with scheme := some t} = credTokens {u with scheme := none} := rfl
    have hhost : hostTokens {u with scheme := some t} = hostTokens {u with scheme := none} := rfl
    have hport : portTokens {u with scheme := some t} = portTokens {u with scheme := none} := rfl
    have hh1 : ({u with scheme := some t} : UnrestrictiveUrl).host.isSome = true := h
    have hh2 : ({u with scheme := none} : UnrestrictiveUrl).host.isSome = true := h
    unfold authorityTokens
    simp [hh1, hh2, hcred, hhost, hport, List.append_assoc]
  calc render {u with scheme := some t}
      = joinTokens (schemeTokens {u with scheme := some t}) ++
          (joinTokens (authorityTokens {u with scheme := some t}) ++
            (joinTokens (pathTokens {u with scheme := some t}) ++
              (joinTokens (queryTokens {u with scheme := some t}) ++
                joinTokens (fragmentTokens {u with scheme := some t})))) := by
        simp [render, tokens, joinTokens_append, String.append_assoc, List.append_assoc]
    _ = (t ++ ":") ++ ("//" ++
          (joinTokens (authorityTokens {u with scheme := none}) ++
            (joinTokens (pathTokens {u with scheme := none}) ++
              (joinTokens (queryTokens {u with scheme := none}) ++
                joinTokens (fragmentTokens {u with scheme := none}))))) := by
        rw [e1, e3, e4, e5, e6, joinTokens_append]
        simp [joinTokens_cons, joinTokens_nil, Token.render, String.append_assoc,
          String.append_empty]
    _ = t ++ "://" ++ render {u with scheme := none} := by
        rw [render, tokens, e2]
        simp only [joinTokens_append, joinTokens_nil, String.append_assoc]
        rw [← String.append_assoc t ":" _, ← String.append_assoc (t ++ ":") "//" _]
        rw [String.append_assoc t ":" "//"]
        rw [show (":" : String) ++ "//" = "://" from rfl]
        simp [String.append_assoc]

theorem strIsEmpty_iff (s : String) : strIsEmpty s = true ↔ s = "" := by
  constructor
  · intro h
    exact String.ext (by simpa [strIsEmpty, List.isEmpty_iff] using h)
  · rintro rfl
    rfl

theorem dotCond_iff (hostOpt : Option Host) (segs : List String) :
    (hostOpt.isNone ∧ 1 < segs.length ∧ segs.headD "" = "")
      ↔ (hostOpt = none ∧ 1 < segs.length ∧ segs.head? = some "") := by
  rcases segs with _ | ⟨s0, rest⟩
  · simp
  · simp [Option.isNone_iff_eq_none]

/-! ## Embedding regression checks: the crate's own passing test cases -/

theorem render_matches_test_arbitrary_scheme :
    render {fromUrl githubRoot with scheme := some "github"} = "github://github.com/" := by
  decide

theorem render_matches_test_remove_scheme :
    render {fromUrl githubRoot with scheme := none} = "github.com/" := by
  decide

theorem render_matches_test_remove_password :
    render {fromUrl {githubRoot with username := "user", password := some "pw"}
        with password := none} = "https://user@github.com/" := by
  decide

/-! ## The claims -/

/-- C1: the claim states that decomposing `https://github.com/SirWindfield`,
clearing the scheme and rendering yields exactly `github.com/SirWindfield`
(this is also the repository's own `removes_scheme` test).  The code instead
emits an extra `/` for the leading empty piece of the wholesale path split,
rendering `github.com//SirWindfield`: the serializer contradicts the
repository's test, so the claim marks a code bug.  This theorem evaluates
the embedded code at the failing input. -/
theorem c1_remove_scheme_renders_double_slash :
    render {fromUrl githubSirWindfield with scheme := none} = "github.com//SirWindfield" ∧
      "github.com//SirWindfield" ≠ "github.com/SirWindfield" := by
  decide

/-- C2: with `cannot_be_a_base` false, the path section is: `/` for the
exact path `"/"`; otherwise, for a present path, the wholesale split on `/`
with every piece emitted `/`-prefixed, preceded by the literal `/.` exactly
when there is no host, the split has more than one element and its first
element is empty; and nothing for an absent path. -/
theorem c2_path_section_follows_spec (u : UnrestrictiveUrl)
    (h : u.cannot_be_a_base = false) :
    joinTokens (pathTokens u) = pathSectionSpec u := by
  rcases hp : u.path with _ | p
  · simp [pathTokens, pathSectionSpec, h, hp, joinTokens_nil]
  · by_cases hr : p = "/"
    · simp [pathTokens, pathSectionSpec, h, hp, hr, joinTokens_cons, joinTokens_nil,
        Token.render, String.append_empty]
    · by_cases hA : (u.host.isNone ∧ 1 < (splitOnSlash p).length ∧
          (splitOnSlash p).headD "" = "")
      · have hB := (dotCond_iff u.host (splitOnSlash p)).mp hA
        simp only [pathTokens, pathSectionSpec, h, hp, hr, Bool.false_eq_true, if_false,
          if_pos hA, if_pos hB]
        rw [joinTokens_append, joinTokens_map_segmentTok]
        simp [joinTokens_cons, joinTokens_nil, Token.render, String.append_empty,
          String.append_assoc]
      · have hB : ¬(u.host = none ∧ 1 < (splitOnSlash p).length ∧
            (splitOnSlash p).head? = some "") :=
          fun hb => hA ((dotCond_iff u.host (splitOnSlash p)).mpr hb)
        simp only [pathTokens, pathSectionSpec, h, hp, hr, Bool.false_eq_true, if_false,
          if_neg hA, if_neg hB]
        rw [List.nil_append, joinTokens_map_segmentTok]
        simp

theorem c2_witness :
    (fromUrl githubSirWindfield).cannot_be_a_base = false ∧
      joinTokens (pathTokens (fromUrl githubSirWindfield)) =
        pathSectionSpec (fromUrl githubSirWindfield) :=
  ⟨by decide, c2_path_section_follows_spec (fromUrl githubSirWindfield) (by decide)⟩

/-- C3: the serializer emits the `//` authority-marker token only when host
and its anchoring scheme are present, and the `@` credential-separator token
only when the username is present; neither appears speculatively. -/
theorem c3_markers_never_speculative (u : UnrestrictiveUrl) :
    (Token.authMarker ∈ tokens u → u.host.isSome ∧ u.scheme.isSome) ∧
      (Token.atSep ∈ tokens u → u.username.isSome) :=
  ⟨fun h => (authMarker_mem_tokens_iff u).mp h, fun h => atSep_mem_tokens_imp h⟩

theorem c3_witness :
    ((fromUrl credUrl).host.isSome ∧ (fromUrl credUrl).scheme.isSome) ∧
      (fromUrl credUrl).username.isSome :=
  ⟨(c3_markers_never_speculative (fromUrl credUrl)).1 (by decide),
   (c3_markers_never_speculative (fromUrl credUrl)).2 (by decide)⟩

/-- C4 counterexample: decompose `https://user:pw@github.com/a` and clear
the scheme.  The render is `user:pw@github.com//a`: it has a `:` before the
first `/` (the password separator sits before the host token and before any
slash), and it even contains `//`, refuting the claim as stated. -/
theorem c4_counterexample :
    render {fromUrl credUrl with scheme := none} = "user:pw@github.com//a" ∧
      ((splitOnSlash "user:pw@github.com//a").headD "").data.contains ':' = true := by
  decide

/-- C4 (amended): for every decomposed parsed URL, clearing the scheme and
rendering emits no scheme token (so no scheme colon) and no `//`
authority-marker token, even when host is present; colons from the
credential or port separators and `//` arising from path-segment rendering
are not excluded. -/
theorem c4_scheme_cleared_no_marker_tokens (p : ParsedUrl) (s : String) :
    Token.schemeTok s ∉ tokens {fromUrl p with scheme := none} ∧
      Token.authMarker ∉ tokens {fromUrl p with scheme := none} := by
  constructor
  · exact schemeTok_not_mem_of_none rfl s
  · intro h
    exact Bool.noConfusion ((authMarker_mem_tokens_iff _).mp h).2

theorem c4_witness :
    Token.authMarker ∉ tokens {fromUrl githubRoot with scheme := none} :=
  (c4_scheme_cleared_no_marker_tokens githubRoot "https").2

/-- C5 counterexample: decompose `mailto:foo` (no host) and set the scheme
to `jojo`.  The render is `jojo:`, which is not prefixed by `jojo://`,
refuting the claim as stated for host-less parsed URLs. -/
theorem c5_counterexample :
    render {fromUrl mailtoFoo with scheme := some "jojo"} = "jojo:" ∧
      ("jojo" ++ "://").data.isPrefixOf ("jojo:").data = false := by
  decide

/-- C5 (amended): for every decomposed parsed URL whose host is present and
every non-empty scheme token `t`, setting the scheme to `t` and rendering
yields `t ++ "://"` followed by exactly the render of the same field set
with the scheme absent — i.e. the authority, path, query and fragment
sections unchanged. -/
theorem c5_set_scheme_prefixes_render (p : ParsedUrl) (t : String) (ht : t ≠ "")
    (hh : (fromUrl p).host.isSome) :
    render {fromUrl p with scheme := some t} =
      t ++ "://" ++ render {fromUrl p with scheme := none} :=
  render_set_scheme (fromUrl p) t hh

theorem c5_witness :
    ("github" ≠ "") ∧
      render {fromUrl githubRoot with scheme := some "github"} =
        "github" ++ "://" ++ render {fromUrl githubRoot with scheme := none} :=
  ⟨by decide, c5_set_scheme_prefixes_render githubRoot "github" (by decide) (by decide)⟩

/-- C6: the serializer emits the `//` authority-marker token if and only if
both host and scheme are present; with host present and scheme absent the
authority section is emitted without the leading double slash. -/
theorem c6_authority_marker_iff (u : UnrestrictiveUrl) :
    Token.authMarker ∈ tokens u ↔ (u.host.isSome ∧ u.scheme.isSome) :=
  authMarker_mem_tokens_iff u

theorem c6_witness : Token.authMarker ∈ tokens (fromUrl githubRoot) :=
  (c6_authority_marker_iff (fromUrl githubRoot)).mpr (by decide)

/-- C7: with host present, the credential text is: the username verbatim,
then `:<password>` exactly when the password is present and non-empty, then
always `@` — and nothing when the username is absent, regardless of the
password.  A present-but-empty password is dropped while `@` still
appears. -/
theorem c7_credentials_follow_spec (u : UnrestrictiveUrl) (hh : u.host.isSome) :
    joinTokens (credTokens u) = credSectionSpec u := by
  rcases hu : u.username with _ | un
  · simp [credTokens, credSectionSpec, hu, joinTokens_nil]
  · rcases hp : u.password with _ | pw
    · simp [credTokens, credSectionSpec, hu, hp, joinTokens_cons, joinTokens_nil,
        Token.render, String.append_assoc, String.append_empty]
    · by_cases he : pw = ""
      · subst he
        simp [credTokens, credSectionSpec, hu, hp, strIsEmpty, joinTokens_cons,
          joinTokens_nil, Token.render, String.append_assoc, String.append_empty]
      · have hne : strIsEmpty pw = false := by
          rcases hb : strIsEmpty pw
          · rfl
          · exact absurd ((strIsEmpty_iff pw).mp hb) he
        simp [credTokens, credSectionSpec, hu, hp, he, hne, joinTokens_cons,
          joinTokens_nil, Token.render, String.append_assoc, String.append_empty]

theorem c7_witness :
    ({fromUrl credUrl with password := some ""} : UnrestrictiveUrl).host.isSome ∧
      joinTokens (credTokens {fromUrl credUrl with password := some ""}) =
        credSectionSpec {fromUrl credUrl with password := some ""} :=
  ⟨by decide, c7_credentials_follow_spec {fromUrl credUrl with password := some ""} (by decide)⟩

/-- C8: with `cannot_be_a_base` true, the path section is just the first
segment of the `path_segments` accessor (which yields segments only when the
path is present and starts with `/`), with no leading slash and all later
segments ignored; when the accessor yields no segments, nothing is
emitted. -/
theorem c8_first_segment_only (u : UnrestrictiveUrl) (h : u.cannot_be_a_base = true) :
    joinTokens (pathTokens u) = firstSegmentSpec u := by
  rcases hp : u.path with _ | p
  · simp [pathTokens, firstSegmentSpec, UnrestrictiveUrl.path_segments, h, hp,
      joinTokens_nil]
  · rcases hs : startsWithSlash p
    · simp [pathTokens, firstSegmentSpec, UnrestrictiveUrl.path_segments, h, hp, hs,
        joinTokens_nil]
    · rcases hseg : splitOnSlash (tailStr p) with _ | ⟨s0, rest⟩
      · simp [pathTokens, firstSegmentSpec, UnrestrictiveUrl.path_segments, h, hp, hs,
          hseg, joinTokens_nil]
      · simp [pathTokens, firstSegmentSpec, UnrestrictiveUrl.path_segments, h, hp, hs,
          hseg, joinTokens_cons, joinTokens_nil, Token.render, String.append_empty]

theorem c8_witness :
    cbabSample.cannot_be_a_base = true ∧
      joinTokens (pathTokens cbabSample) = firstSegmentSpec cbabSample :=
  ⟨by decide, c8_first_segment_only cbabSample (by decide)⟩

/-- C9: the decomposer copies every parser accessor through unchanged
(including a present-but-empty password), with exactly one normalization:
an empty username is stored as absent.  It is a total pure function, so it
cannot fail and has no side effects. -/
theorem c9_decomposer_mirrors_accessors (p : ParsedUrl) :
    (fromUrl p).fragment = p.fragment ∧ (fromUrl p).host = p.host ∧
    (fromUrl p).password = p.password ∧ (fromUrl p).path = some p.path ∧
    (fromUrl p).port = p.port ∧ (fromUrl p).query = p.query ∧
    (fromUrl p).scheme = some p.scheme ∧
    (fromUrl p).cannot_be_a_base = p.cannot_be_a_base ∧
    (fromUrl p).username = (if p.username = "" then none else some p.username) := by
  refine ⟨rfl, rfl, rfl, rfl, rfl, rfl, rfl, rfl, ?_⟩
  show (if strIsEmpty p.username then none else some p.username) = _
  by_cases h : p.username = ""
  · simp [h, strIsEmpty]
  · have hne : strIsEmpty p.username = false := by
      rcases hb : strIsEmpty p.username
      · rfl
      · exact absurd ((strIsEmpty_iff p.username).mp hb) h
    simp [hne, h]

/-- C10: the view produced by the decomposer always has the path present:
`url.path()` is a plain string accessor and is injected into the option, so
the path-absent rendering branch is reachable only through caller
mutation. -/
theorem c10_decomposed_path_present (p : ParsedUrl) :
    ((fromUrl p).path).isSome = true := rfl

end UrlRs
